import Mathlib

/-!
Shallow embedding of the drone-catalog media server
(`src/backend/server.js` and `src/unnamed/part_000`).

The server keeps an in-memory array `mediaFiles` of metadata records and a
backing object store (local upload directory in the main `server.js` variant,
a cloud bucket in the other two variants).  JavaScript record objects become a
Lean structure, the `mediaFiles` array becomes a `List MediaRecord`, the
upload directory becomes a list of named objects with sizes, and external I/O
outcomes (bucket listing failures, unlink failures) are passed in as explicit
oracle arguments.  JS truthiness of the destructured request-body fields is
translated explicitly: `undefined` is `none`, `null` is `some none` for the
nullable `platformId` field, and an empty string is falsy.
-/

deriving instance DecidableEq for Except

namespace DroneCatalog

/-- A metadata record as built by the POST handler in `server.js`:
`{id, name, type, url, platformId, isThumbnail}`. -/
structure MediaRecord where
  id : String
  name : String
  type : String
  url : String
  platformId : Option String
  isThumbnail : Bool
deriving DecidableEq, Repr

/-- The destructured PUT body `const { name, platformId, isThumbnail } = req.body`.
`none` means the field is absent (`undefined`); for `platformId`,
`some none` is an explicit JSON `null`. -/
structure Patch where
  name : Option String
  platformId : Option (Option String)
  isThumbnail : Option Bool
deriving DecidableEq, Repr

/-- Mutate (functionally) the first record whose `id` matches, as the JS
`mediaFiles.find(f => f.id === id)` returns a reference to the first match
and the handler mutates that object in place. -/
def updateFirst (files : List MediaRecord) (id : String)
    (g : MediaRecord → MediaRecord) : List MediaRecord :=
  match files with
  | [] => []
  | f :: rest => if f.id = id then g f :: rest else f :: updateFirst rest id g

/-- JS truthiness of the body's `platformId` value in the guard
`if (isThumbnail && platformId)`: truthy exactly when it is a non-empty
string (not `undefined`, not `null`, not `""`). -/
def patchPlatTruthy : Option (Option String) → Option String
  | some (some p) => if p = "" then none else some p
  | some none => none
  | none => none

/-- The first two mutation lines of the PUT handler:
`if (name) file.name = name;` and
`if (platformId !== undefined) file.platformId = platformId;`. -/
def applyPatchFields (p : Patch) (f : MediaRecord) : MediaRecord :=
  let f1 := match p.name with
    | some n => if n = "" then f else { f with name := n }
    | none => f
  match p.platformId with
  | some v => { f1 with platformId := v }
  | none => f1

/-- The `mediaFiles.forEach` loop of the PUT handler: every record with
`f.platformId === platformId && f.id !== id` gets `isThumbnail = false`. -/
def clearSiblings (files : List MediaRecord) (id P : String) : List MediaRecord :=
  files.map fun f =>
    if f.platformId = some P ∧ f.id ≠ id then { f with isThumbnail := false } else f

/-- The PUT `/api/media/:id` handler (identical in all three variants):
find the record, apply `name`/`platformId` patches, then the thumbnail
logic guarded by `if (isThumbnail && platformId)`; returns the updated
list and the record sent back by `res.json(file)`.  `Except.error ()`
is the 404 NotFound response. -/
def updateMedia (files : List MediaRecord) (id : String) (p : Patch) :
    Except Unit (List MediaRecord × MediaRecord) :=
  match files.find? (fun f => f.id == id) with
  | none => Except.error ()
  | some f0 =>
    let files1 := updateFirst files id (applyPatchFields p)
    let t1 := applyPatchFields p f0
    match p.isThumbnail with
    | none => Except.ok (files1, t1)
    | some b =>
      if b then
        match patchPlatTruthy p.platformId with
        | some P =>
          Except.ok (updateFirst (clearSiblings files1 id P) id
              (fun f => { f with isThumbnail := true }),
            { t1 with isThumbnail := true })
        | none =>
          Except.ok (updateFirst files1 id (fun f => { f with isThumbnail := false }),
            { t1 with isThumbnail := false })
      else
        Except.ok (updateFirst files1 id (fun f => { f with isThumbnail := false }),
          { t1 with isThumbnail := false })

/-- The multer `fileFilter` allow-list, identical in all three variants. -/
def allowedTypes : List String :=
  ["image/jpeg", "image/png", "video/mp4", "video/webm", "audio/mpeg", "audio/wav"]

/-- `MAX_TOTAL_SIZE = 500 * 1024 * 1024`. -/
def MAX_TOTAL_SIZE : Nat := 500 * 1024 * 1024

/-- The multer per-file limit, `limits: { fileSize: 100 * 1024 * 1024 }`,
present in all three variants.  A larger file makes multer abort the
request with a LIMIT_FILE_SIZE error before the route handler runs. -/
def FILE_SIZE_LIMIT : Nat := 100 * 1024 * 1024

/-- One file in the upload directory (name and byte size). -/
structure StoredObject where
  name : String
  size : Nat
deriving DecidableEq, Repr

/-- State of the local-variant server: the upload directory plus the
in-memory `mediaFiles` array. -/
structure ServerState where
  store : List StoredObject
  mediaFiles : List MediaRecord
deriving DecidableEq, Repr

/-- `getDirSize(UPLOAD_PATH)`: total size of the files currently on disk. -/
def getDirSize (store : List StoredObject) : Nat :=
  (store.map (fun o => o.size)).sum

/-- Blob-store side effects performed by a request, recorded so that
"never invokes `put`" claims are directly expressible. -/
inductive StoreEvent where
  | put : String → Nat → StoreEvent
  | unlink : String → StoreEvent
deriving DecidableEq, Repr

/-- Error responses of the POST handler.  `limitFileSize` is multer's
LIMIT_FILE_SIZE abort for a file over the per-file ceiling; `uploadFailed`
is the catch-all 500 of the cloud variants' try/catch. -/
inductive CreateError where
  | unsupportedMediaType
  | limitFileSize
  | capacityExceeded
  | uploadFailed
deriving DecidableEq, Repr

/-- An upload request: the buffered file (multer fields) plus the form
body fields, which in multipart form data are strings or absent. -/
structure UploadRequest where
  mimetype : String
  size : Nat
  originalname : String
  filename : String
  name : Option String
  platformId : Option String
  isThumbnail : Option String
deriving DecidableEq, Repr

/-- `req.body.name || req.file.originalname` (empty string is falsy). -/
def jsOrDefault (v : Option String) (dflt : String) : String :=
  match v with
  | some s => if s = "" then dflt else s
  | none => dflt

/-- `req.body.platformId || null`. -/
def jsOrNull (v : Option String) : Option String :=
  match v with
  | some s => if s = "" then none else some s
  | none => none

/-- Result of the local-variant POST handler: resulting server state, the
store operations performed, and the HTTP outcome. -/
structure CreateResult where
  state : ServerState
  events : List StoreEvent
  outcome : Except CreateError MediaRecord
deriving DecidableEq, Repr

/-- The POST `/api/media` handler of the local variant (`server.js`).
multer runs first: the `fileFilter` rejects disallowed MIME types before
anything is written; a file over the 100 MiB `fileSize` limit makes multer
abort with LIMIT_FILE_SIZE (the partial file is removed, the handler never
runs); otherwise the buffered file is persisted to `UPLOAD_PATH` under a
fresh name.  Only then does the handler run: it computes
`currentSize = getDirSize(UPLOAD_PATH)` (which already includes the file
just saved), rejects with 413 and unlinks the file when
`currentSize + req.file.size > MAX_TOTAL_SIZE`, and otherwise pushes the
new record. -/
def createMedia (st : ServerState) (rq : UploadRequest) (freshId : String) :
    CreateResult :=
  if rq.mimetype ∈ allowedTypes then
    if rq.size > FILE_SIZE_LIMIT then
      { state := st, events := [], outcome := Except.error CreateError.limitFileSize }
    else
      let store1 := st.store ++ [⟨rq.filename, rq.size⟩]
      let currentSize := getDirSize store1
      let newSize := currentSize + rq.size
      if newSize > MAX_TOTAL_SIZE then
        { state := { store := store1.filter (fun o => o.name != rq.filename),
                     mediaFiles := st.mediaFiles },
          events := [StoreEvent.put rq.filename rq.size, StoreEvent.unlink rq.filename],
          outcome := Except.error CreateError.capacityExceeded }
      else
        let newFile : MediaRecord :=
          { id := freshId,
            name := jsOrDefault rq.name rq.originalname,
            type := rq.mimetype,
            url := "/uploads/" ++ rq.filename,
            platformId := jsOrNull rq.platformId,
            isThumbnail := rq.isThumbnail == some "true" }
        { state := { store := store1, mediaFiles := st.mediaFiles ++ [newFile] },
          events := [StoreEvent.put rq.filename rq.size],
          outcome := Except.ok newFile }
  else
    { state := st, events := [], outcome := Except.error CreateError.unsupportedMediaType }

/-- Outcome of listing the cloud bucket in `src/unnamed/part_000`:
either `getFiles` itself throws, or it yields a list of per-file
`getMetadata` results (each a size or a failure). -/
inductive BucketListing where
  | unavailable : BucketListing
  | files : List (Except Unit Nat) → BucketListing
deriving DecidableEq, Repr

/-- The accumulation loop inside `getTotalSize`: sizes are added until the
first `getMetadata` failure, which aborts the loop (the `catch` swallows
it) leaving the total accumulated so far. -/
def sumSizes (acc : Nat) : List (Except Unit Nat) → Nat
  | [] => acc
  | Except.ok n :: rest => sumSizes (acc + n) rest
  | Except.error _ :: _ => acc

/-- `getTotalSize()` from `src/unnamed/part_000`: the whole body is wrapped
in `try { ... } catch (err) { console.error(...) }` and then `return total`,
so a failing `getFiles` yields `0` and a mid-loop failure yields the
partial sum — no error ever propagates. -/
def getTotalSize : BucketListing → Nat
  | BucketListing.unavailable => 0
  | BucketListing.files l => sumSizes 0 l

/-- The POST `/api/media` handler of `src/unnamed/part_000`: multer
in-memory `fileFilter` and 100 MiB `fileSize` limit, then the quota check
against `getTotalSize()` (413 before the try block), then the try block.
That file never does `require('path')`, yet line 93 builds the object name
with `path.extname(req.file.originalname)`: every admitted upload throws a
ReferenceError there, the `catch` answers 500 `uploadFailed`, and no record
is ever appended — the handler has no reachable success branch. -/
def createMediaCloud (mediaFiles : List MediaRecord) (listing : BucketListing)
    (rq : UploadRequest) :
    List MediaRecord × Except CreateError MediaRecord :=
  if rq.mimetype ∈ allowedTypes then
    if rq.size > FILE_SIZE_LIMIT then
      (mediaFiles, Except.error CreateError.limitFileSize)
    else
      let currentSize := getTotalSize listing
      let newSize := currentSize + rq.size
      if newSize > MAX_TOTAL_SIZE then
        (mediaFiles, Except.error CreateError.capacityExceeded)
      else
        (mediaFiles, Except.error CreateError.uploadFailed)
  else (mediaFiles, Except.error CreateError.unsupportedMediaType)

/-- The POST `/api/media` handler of the cloud-functions variant at the end
of `server.js` (lines 188–216): same `fileFilter` and 100 MiB `fileSize`
limit, then the bucket save (its success is the `saveOk` oracle; this
variant does require `path`, so the save can genuinely complete) — but no
capacity check at all. -/
def createMediaFn (mediaFiles : List MediaRecord) (saveOk : Bool)
    (rq : UploadRequest) (freshId : String) :
    List MediaRecord × Except CreateError MediaRecord :=
  if rq.mimetype ∈ allowedTypes then
    if rq.size > FILE_SIZE_LIMIT then
      (mediaFiles, Except.error CreateError.limitFileSize)
    else if saveOk then
      let newFile : MediaRecord :=
        { id := freshId,
          name := jsOrDefault rq.name rq.originalname,
          type := rq.mimetype,
          url := "https://storage.googleapis.com/bucket/media/" ++ rq.filename,
          platformId := jsOrNull rq.platformId,
          isThumbnail := rq.isThumbnail == some "true" }
      (mediaFiles ++ [newFile], Except.ok newFile)
    else (mediaFiles, Except.error CreateError.uploadFailed)
  else (mediaFiles, Except.error CreateError.unsupportedMediaType)

/-- Error responses of the DELETE handler. -/
inductive DeleteError where
  | notFound
  | unlinkFailed
deriving DecidableEq, Repr

/-- `path.basename(file.url)`: the part after the last `/`. -/
def basename (url : String) : String :=
  ((url.splitOn "/").getLast?).getD url

/-- The DELETE `/api/media/:id` handler of the local variant: find the
record (404 if absent), `fs.unlink` the file named by the record's url
(the `ioFail` oracle covers transient I/O failure; unlink also fails when
no such file exists), and only on unlink success filter the record out of
`mediaFiles`.  A failed unlink is caught and answered with 500, leaving
`mediaFiles` untouched. -/
def deleteMedia (st : ServerState) (id : String) (ioFail : Bool) :
    ServerState × Except DeleteError Unit :=
  match st.mediaFiles.find? (fun f => f.id == id) with
  | none => (st, Except.error DeleteError.notFound)
  | some file =>
    let nm := basename file.url
    if ioFail || !(st.store.any (fun o => o.name == nm)) then
      (st, Except.error DeleteError.unlinkFailed)
    else
      ({ store := st.store.filter (fun o => o.name != nm),
         mediaFiles := st.mediaFiles.filter (fun f => f.id != id) },
       Except.ok ())

/-- GET `/api/media` of the local variant: returns the in-memory list
unchanged. -/
def listMedia (st : ServerState) : List MediaRecord :=
  st.mediaFiles

/-- The group whose sibling thumbnails a PUT request clears: only when the
body has a truthy `isThumbnail` together with a truthy `platformId`. -/
def clearGroup (p : Patch) : Option String :=
  match p.isThumbnail with
  | some true => patchPlatTruthy p.platformId
  | some false => none
  | none => none

/-! ### Helper lemmas about `updateFirst`, `clearSiblings` and `find?` -/

theorem updateFirst_id_fun (l : List MediaRecord) (tid : String) :
    updateFirst l tid (fun f => f) = l := by
  induction l with
  | nil => rfl
  | cons f rest ih => simp [updateFirst, ih]

theorem find?_updateFirst {l : List MediaRecord} {tid : String}
    {g : MediaRecord → MediaRecord} (hg : ∀ f, (g f).id = f.id) {f0 : MediaRecord}
    (h : l.find? (fun f => f.id == tid) = some f0) :
    (updateFirst l tid g).find? (fun f => f.id == tid) = some (g f0) := by
  induction l with
  | nil => simp at h
  | cons f rest ih =>
    by_cases hf : f.id = tid
    · rw [List.find?_cons_of_pos _ (by simpa using hf)] at h
      have h0 : f = f0 := Option.some.inj h
      subst h0
      have hgid : ((g f).id == tid) = true := by simp [hg f, hf]
      simp only [updateFirst, if_pos hf]
      rw [List.find?_cons_of_pos (p := fun (f : MediaRecord) => f.id == tid) _ hgid]
    · have hne : ¬ ((f.id == tid) = true) := by simpa using hf
      rw [List.find?_cons_of_neg (p := fun (f : MediaRecord) => f.id == tid) _ hne] at h
      simp only [updateFirst, if_neg hf]
      rw [List.find?_cons_of_neg (p := fun (f : MediaRecord) => f.id == tid) _ hne]
      exact ih h

theorem find?_map_preserving {l : List MediaRecord} {tid : String}
    {g : MediaRecord → MediaRecord} (hg : ∀ f, (g f).id = f.id) :
    (l.map g).find? (fun f => f.id == tid) = (l.find? (fun f => f.id == tid)).map g := by
  induction l with
  | nil => rfl
  | cons f rest ih =>
    by_cases hf : f.id = tid
    · have h1 : ((g f).id == tid) = true := by simp [hg f, hf]
      have h2 : ((f.id == tid)) = true := by simpa using hf
      rw [List.map_cons, List.find?_cons_of_pos (p := fun (f : MediaRecord) => f.id == tid) _ h1,
        List.find?_cons_of_pos (p := fun (f : MediaRecord) => f.id == tid) _ h2]
      rfl
    · have h1 : ¬ (((g f).id == tid) = true) := by simp [hg f, hf]
      have h2 : ¬ ((f.id == tid) = true) := by simpa using hf
      rw [List.map_cons, List.find?_cons_of_neg (p := fun (f : MediaRecord) => f.id == tid) _ h1,
        List.find?_cons_of_neg (p := fun (f : MediaRecord) => f.id == tid) _ h2]
      exact ih

theorem mem_updateFirst {l : List MediaRecord} {tid : String}
    {g : MediaRecord → MediaRecord} {f' : MediaRecord}
    (h : f' ∈ updateFirst l tid g) :
    f' ∈ l ∨ ∃ f ∈ l, f.id = tid ∧ f' = g f := by
  induction l with
  | nil => simp [updateFirst] at h
  | cons f rest ih =>
    by_cases hf : f.id = tid
    · simp only [updateFirst, if_pos hf] at h
      rcases List.mem_cons.mp h with h1 | h1
      · exact Or.inr ⟨f, List.mem_cons_self f rest, hf, h1⟩
      · exact Or.inl (List.mem_cons_of_mem _ h1)
    · simp only [updateFirst, if_neg hf] at h
      rcases List.mem_cons.mp h with h1 | h1
      · exact Or.inl (h1 ▸ List.mem_cons_self f rest)
      · rcases ih h1 with h2 | ⟨f2, hf2, he⟩
        · exact Or.inl (List.mem_cons_of_mem _ h2)
        · exact Or.inr ⟨f2, List.mem_cons_of_mem _ hf2, he⟩

theorem forall2_updateFirst (l : List MediaRecord) (tid : String)
    (g : MediaRecord → MediaRecord) :
    List.Forall₂ (fun f f' => (f.id = tid ∧ f' = g f) ∨ f' = f) l (updateFirst l tid g) := by
  induction l with
  | nil => exact List.Forall₂.nil
  | cons f rest ih =>
    by_cases hf : f.id = tid
    · simp only [updateFirst, if_pos hf]
      exact List.Forall₂.cons (Or.inl ⟨hf, rfl⟩)
        (List.forall₂_same.mpr fun x _ => Or.inr rfl)
    · simp only [updateFirst, if_neg hf]
      exact List.Forall₂.cons (Or.inr rfl) ih

theorem forall2_map (l : List MediaRecord) (g : MediaRecord → MediaRecord) :
    List.Forall₂ (fun f f' => f' = g f) l (l.map g) := by
  induction l with
  | nil => exact List.Forall₂.nil
  | cons f rest ih => exact List.Forall₂.cons rfl ih

theorem forall2_comp {α β γ : Type} {R : α → β → Prop} {S : β → γ → Prop} :
    ∀ {a : List α} {b : List β} {c : List γ}, List.Forall₂ R a b → List.Forall₂ S b c →
      List.Forall₂ (fun x z => ∃ y, R x y ∧ S y z) a c := by
  intro a b c h1
  induction h1 generalizing c with
  | nil =>
    intro h2
    cases h2
    exact List.Forall₂.nil
  | cons hR _ ih =>
    intro h2
    cases h2 with
    | cons hS ht => exact List.Forall₂.cons ⟨_, hR, hS⟩ (ih ht)

theorem applyPatchFields_frame (p : Patch) (f : MediaRecord) :
    (applyPatchFields p f).id = f.id ∧ (applyPatchFields p f).type = f.type ∧
      (applyPatchFields p f).url = f.url ∧
      (applyPatchFields p f).isThumbnail = f.isThumbnail := by
  unfold applyPatchFields
  cases p.name with
  | none => cases p.platformId <;> simp
  | some n => by_cases hn : n = "" <;> cases p.platformId <;> simp [hn]

theorem updateFirst_idem (l : List MediaRecord) (tid : String)
    (g : MediaRecord → MediaRecord) (hg : ∀ f, (g f).id = f.id)
    (hgg : ∀ f, g (g f) = g f) :
    updateFirst (updateFirst l tid g) tid g = updateFirst l tid g := by
  induction l with
  | nil => rfl
  | cons f rest ih =>
    by_cases hf : f.id = tid
    · simp only [updateFirst, if_pos hf]
      rw [if_pos (show (g f).id = tid by rw [hg f]; exact hf), hgg f]
    · simp only [updateFirst, if_neg hf]
      rw [ih]

theorem map_untouched {l : List MediaRecord} {tid : String} {g : MediaRecord → MediaRecord}
    (h : ∀ x ∈ l, ¬ x.id = tid) :
    l.map (fun f => if f.id = tid then g f else f) = l := by
  induction l with
  | nil => rfl
  | cons f rest ih =>
    rw [List.map_cons, if_neg (h f (List.mem_cons_self f rest)),
      ih (fun x hx => h x (List.mem_cons_of_mem _ hx))]

theorem updateFirst_eq_map {l : List MediaRecord} {tid : String}
    {g : MediaRecord → MediaRecord}
    (hnd : (l.map (fun f => f.id)).Nodup) :
    updateFirst l tid g = l.map (fun f => if f.id = tid then g f else f) := by
  induction l with
  | nil => rfl
  | cons f rest ih =>
    rw [List.map_cons] at hnd
    have h1 := (List.nodup_cons.mp hnd).1
    have h2 := (List.nodup_cons.mp hnd).2
    by_cases hf : f.id = tid
    · have hmu : rest.map (fun f => if f.id = tid then g f else f) = rest :=
        map_untouched fun x hx hxid =>
          h1 (by rw [hf, ← hxid]; exact List.mem_map_of_mem _ hx)
      simp only [updateFirst, if_pos hf, List.map_cons, hmu]
    · simp only [updateFirst, if_neg hf, List.map_cons, ih h2]

theorem ids_updateFirst (l : List MediaRecord) (tid : String)
    (g : MediaRecord → MediaRecord) (hg : ∀ f, (g f).id = f.id) :
    (updateFirst l tid g).map (fun f => f.id) = l.map (fun f => f.id) := by
  induction l with
  | nil => rfl
  | cons f rest ih =>
    by_cases hf : f.id = tid
    · simp only [updateFirst, if_pos hf, List.map_cons, hg f]
    · simp only [updateFirst, if_neg hf, List.map_cons, ih]

theorem filter_map_length_le_one (l : List MediaRecord) (G : MediaRecord → MediaRecord)
    (pred : MediaRecord → Bool) (tid : String)
    (hnd : (l.map (fun f => f.id)).Nodup)
    (hp : ∀ f, pred (G f) = true → f.id = tid) :
    ((l.map G).filter pred).length ≤ 1 := by
  induction l with
  | nil => simp
  | cons f rest ih =>
    rw [List.map_cons] at hnd
    have h1 := (List.nodup_cons.mp hnd).1
    have h2 := (List.nodup_cons.mp hnd).2
    rw [List.map_cons]
    by_cases hf : pred (G f) = true
    · rw [List.filter_cons_of_pos hf]
      have hrest : (rest.map G).filter pred = [] := by
        rw [List.filter_eq_nil_iff]
        intro a ha hpa
        rcases List.mem_map.mp ha with ⟨x, hx, rfl⟩
        have hxid : x.id = tid := hp x hpa
        exact h1 (by rw [hp f hf, ← hxid]; exact List.mem_map_of_mem _ hx)
      rw [hrest]
      simp
    · rw [List.filter_cons_of_neg hf]
      exact ih h2

/-! ### Branch characterizations of `updateMedia` -/

theorem updateMedia_none_thumb {files : List MediaRecord} {id : String} {p : Patch}
    {f0 : MediaRecord}
    (hf : files.find? (fun f => f.id == id) = some f0) (hth : p.isThumbnail = none) :
    updateMedia files id p =
      Except.ok (updateFirst files id (applyPatchFields p), applyPatchFields p f0) := by
  simp [updateMedia, hf, hth]

theorem updateMedia_clear_branch {files : List MediaRecord} {id : String} {p : Patch}
    {f0 : MediaRecord} {P : String}
    (hf : files.find? (fun f => f.id == id) = some f0)
    (hth : p.isThumbnail = some true) (hP : patchPlatTruthy p.platformId = some P) :
    updateMedia files id p = Except.ok
      (updateFirst (clearSiblings (updateFirst files id (applyPatchFields p)) id P) id
          (fun f => { f with isThumbnail := true }),
        { applyPatchFields p f0 with isThumbnail := true }) := by
  simp [updateMedia, hf, hth, hP]

theorem updateMedia_true_nogroup {files : List MediaRecord} {id : String} {p : Patch}
    {f0 : MediaRecord}
    (hf : files.find? (fun f => f.id == id) = some f0)
    (hth : p.isThumbnail = some true) (hP : patchPlatTruthy p.platformId = none) :
    updateMedia files id p = Except.ok
      (updateFirst (updateFirst files id (applyPatchFields p)) id
          (fun f => { f with isThumbnail := false }),
        { applyPatchFields p f0 with isThumbnail := false }) := by
  simp [updateMedia, hf, hth, hP]

theorem updateMedia_false_thumb {files : List MediaRecord} {id : String} {p : Patch}
    {f0 : MediaRecord}
    (hf : files.find? (fun f => f.id == id) = some f0)
    (hth : p.isThumbnail = some false) :
    updateMedia files id p = Except.ok
      (updateFirst (updateFirst files id (applyPatchFields p)) id
          (fun f => { f with isThumbnail := false }),
        { applyPatchFields p f0 with isThumbnail := false }) := by
  simp [updateMedia, hf, hth]

theorem updateMedia_ok_cases {files : List MediaRecord} {id : String} {p : Patch}
    {files' : List MediaRecord} {ret : MediaRecord}
    (h : updateMedia files id p = Except.ok (files', ret)) :
    ∃ f0, files.find? (fun f => f.id == id) = some f0 := by
  cases hf : files.find? (fun f => f.id == id) with
  | none => simp [updateMedia, hf] at h
  | some f0 => exact ⟨f0, rfl⟩

theorem updateMedia_find {files : List MediaRecord} {id : String} {p : Patch}
    {files' : List MediaRecord} {ret : MediaRecord}
    (h : updateMedia files id p = Except.ok (files', ret)) :
    files'.find? (fun f => f.id == id) = some ret := by
  obtain ⟨f0, hf⟩ := updateMedia_ok_cases h
  have hapf : ∀ f, (applyPatchFields p f).id = f.id := fun f => (applyPatchFields_frame p f).1
  have hsetT : ∀ f : MediaRecord, ({ f with isThumbnail := true } : MediaRecord).id = f.id :=
    fun f => rfl
  have hsetF : ∀ f : MediaRecord, ({ f with isThumbnail := false } : MediaRecord).id = f.id :=
    fun f => rfl
  have hf0id : f0.id = id := by simpa using List.find?_some hf
  cases hth : p.isThumbnail with
  | none =>
    rw [updateMedia_none_thumb hf hth] at h
    simp only [Except.ok.injEq, Prod.mk.injEq] at h
    obtain ⟨rfl, rfl⟩ := h
    exact find?_updateFirst hapf hf
  | some b =>
    cases b with
    | false =>
      rw [updateMedia_false_thumb hf hth] at h
      simp only [Except.ok.injEq, Prod.mk.injEq] at h
      obtain ⟨rfl, rfl⟩ := h
      exact find?_updateFirst hsetF (find?_updateFirst hapf hf)
    | true =>
      cases hP : patchPlatTruthy p.platformId with
      | none =>
        rw [updateMedia_true_nogroup hf hth hP] at h
        simp only [Except.ok.injEq, Prod.mk.injEq] at h
        obtain ⟨rfl, rfl⟩ := h
        exact find?_updateFirst hsetF (find?_updateFirst hapf hf)
      | some P =>
        rw [updateMedia_clear_branch hf hth hP] at h
        simp only [Except.ok.injEq, Prod.mk.injEq] at h
        obtain ⟨rfl, rfl⟩ := h
        have hcf : ∀ f : MediaRecord,
            ((if f.platformId = some P ∧ f.id ≠ id then { f with isThumbnail := false }
              else f) : MediaRecord).id = f.id := by
          intro f
          split <;> rfl
        have s1 := find?_updateFirst hapf hf
        have s2 : (clearSiblings (updateFirst files id (applyPatchFields p)) id P).find?
            (fun f => f.id == id) =
            some (if (applyPatchFields p f0).platformId = some P ∧
                (applyPatchFields p f0).id ≠ id then
                  { applyPatchFields p f0 with isThumbnail := false }
                else applyPatchFields p f0) := by
          simp only [clearSiblings]
          rw [find?_map_preserving hcf, s1]
          rfl
        have hskip : (if (applyPatchFields p f0).platformId = some P ∧
            (applyPatchFields p f0).id ≠ id then
              { applyPatchFields p f0 with isThumbnail := false }
            else applyPatchFields p f0) = applyPatchFields p f0 := by
          rw [if_neg]
          rintro ⟨-, hne⟩
          exact hne (by rw [hapf f0, hf0id])
        rw [hskip] at s2
        exact find?_updateFirst hsetT s2

/-! ### Claim C1 -/

/-- C1 (amended): when a PUT patch carries `isThumbnail`, the handler's guard
is `if (isThumbnail && platformId)` over the *patch* values.  If the patch's
`isThumbnail` is `true` and the patch itself carries a truthy `platformId` P,
every other record with `platformId = P` is cleared and the target is set to
`true`; in every other case — including `isThumbnail: true` with no
`platformId` in the patch, whatever the record's stored `platformId` — the
target's `isThumbnail` is set to `false`. -/
theorem updateMedia_thumbnail_cases (files : List MediaRecord) (id : String) (p : Patch)
    (b : Bool) (files' : List MediaRecord) (ret : MediaRecord)
    (hth : p.isThumbnail = some b)
    (h : updateMedia files id p = Except.ok (files', ret)) :
    (∀ P, b = true → patchPlatTruthy p.platformId = some P →
      ret.isThumbnail = true ∧
        ∀ f' ∈ files', f'.id ≠ id → f'.platformId = some P → f'.isThumbnail = false) ∧
    ((b = false ∨ patchPlatTruthy p.platformId = none) → ret.isThumbnail = false) := by
  obtain ⟨f0, hf⟩ := updateMedia_ok_cases h
  constructor
  · intro P hb hP
    subst hb
    rw [updateMedia_clear_branch hf hth hP] at h
    simp only [Except.ok.injEq, Prod.mk.injEq] at h
    obtain ⟨rfl, rfl⟩ := h
    refine ⟨rfl, ?_⟩
    intro f' hmem hne hplat
    rcases mem_updateFirst hmem with hm | ⟨f, _, hfid, rfl⟩
    · simp only [clearSiblings] at hm
      obtain ⟨x, _, rfl⟩ := List.mem_map.mp hm
      by_cases hc : x.platformId = some P ∧ x.id ≠ id
      · simp only [if_pos hc]
      · rw [if_neg hc] at hne hplat ⊢
        exact absurd ⟨hplat, hne⟩ hc
    · exact absurd hfid hne
  · intro hor
    rcases hor with hb | hP
    · subst hb
      rw [updateMedia_false_thumb hf hth] at h
      simp only [Except.ok.injEq, Prod.mk.injEq] at h
      obtain ⟨rfl, rfl⟩ := h
      rfl
    · cases b with
      | false =>
        rw [updateMedia_false_thumb hf hth] at h
        simp only [Except.ok.injEq, Prod.mk.injEq] at h
        obtain ⟨rfl, rfl⟩ := h
        rfl
      | true =>
        rw [updateMedia_true_nogroup hf hth hP] at h
        simp only [Except.ok.injEq, Prod.mk.injEq] at h
        obtain ⟨rfl, rfl⟩ := h
        rfl

/-- A record that is currently the thumbnail of platform "P". -/
def c1Rec : MediaRecord :=
  { id := "a", name := "A", type := "image/png", url := "/uploads/a.png",
    platformId := some "P", isThumbnail := true }

/-- C1 counterexample: the record's resulting `platformId` is the non-null
"P" and the patch has `isThumbnail: true` but no `platformId`, so the claim
predicts `isThumbnail = true`; the code instead takes the else branch of
`if (isThumbnail && platformId)` and forces `isThumbnail = false`. -/
theorem updateMedia_thumbnail_claim_cex :
    updateMedia [c1Rec] "a" { name := none, platformId := none, isThumbnail := some true } =
      Except.ok ([{ c1Rec with isThumbnail := false }], { c1Rec with isThumbnail := false }) ∧
    ({ c1Rec with isThumbnail := false } : MediaRecord).platformId = some "P" ∧
    ({ c1Rec with isThumbnail := false } : MediaRecord).isThumbnail = false := by
  exact ⟨rfl, rfl, rfl⟩

def c1WFiles : List MediaRecord :=
  [{ id := "b", name := "B", type := "image/png", url := "/uploads/b.png",
     platformId := some "P", isThumbnail := true },
   { id := "a", name := "A", type := "image/png", url := "/uploads/a.png",
     platformId := some "P", isThumbnail := false }]

def c1WPatch : Patch := { name := none, platformId := some (some "P"), isThumbnail := some true }

def c1WFiles' : List MediaRecord :=
  [{ id := "b", name := "B", type := "image/png", url := "/uploads/b.png",
     platformId := some "P", isThumbnail := false },
   { id := "a", name := "A", type := "image/png", url := "/uploads/a.png",
     platformId := some "P", isThumbnail := true }]

def c1WRet : MediaRecord :=
  { id := "a", name := "A", type := "image/png", url := "/uploads/a.png",
    platformId := some "P", isThumbnail := true }

theorem updateMedia_thumbnail_cases_witness :
    c1WPatch.isThumbnail = some true ∧
    updateMedia c1WFiles "a" c1WPatch = Except.ok (c1WFiles', c1WRet) ∧
    ((∀ P, true = true → patchPlatTruthy c1WPatch.platformId = some P →
        c1WRet.isThumbnail = true ∧
          ∀ f' ∈ c1WFiles', f'.id ≠ "a" → f'.platformId = some P →
            f'.isThumbnail = false) ∧
      ((true = false ∨ patchPlatTruthy c1WPatch.platformId = none) →
        c1WRet.isThumbnail = false)) :=
  ⟨rfl, rfl,
    updateMedia_thumbnail_cases c1WFiles "a" c1WPatch true c1WFiles' c1WRet rfl rfl⟩

/-! ### Claim C7 -/

/-- C7: the PUT handler replaces `name` exactly when the patch's `name` is
present and non-empty, and replaces `platformId` exactly when the patch's
`platformId` is present (including an explicit null); the updated record is
the one stored under `id` in the resulting index. -/
theorem updateMedia_name_platform (files : List MediaRecord) (id : String) (p : Patch)
    (f0 : MediaRecord) (files' : List MediaRecord) (ret : MediaRecord)
    (hf : files.find? (fun f => f.id == id) = some f0)
    (h : updateMedia files id p = Except.ok (files', ret)) :
    (ret.name = match p.name with
      | some s => if s = "" then f0.name else s
      | none => f0.name) ∧
    (ret.platformId = match p.platformId with
      | some v => v
      | none => f0.platformId) ∧
    files'.find? (fun f => f.id == id) = some ret := by
  have hret : ret.name = (applyPatchFields p f0).name ∧
      ret.platformId = (applyPatchFields p f0).platformId := by
    have hfind := updateMedia_find h
    cases hth : p.isThumbnail with
    | none =>
      rw [updateMedia_none_thumb hf hth] at h
      simp only [Except.ok.injEq, Prod.mk.injEq] at h
      obtain ⟨rfl, rfl⟩ := h
      exact ⟨rfl, rfl⟩
    | some b =>
      cases b with
      | false =>
        rw [updateMedia_false_thumb hf hth] at h
        simp only [Except.ok.injEq, Prod.mk.injEq] at h
        obtain ⟨rfl, rfl⟩ := h
        exact ⟨rfl, rfl⟩
      | true =>
        cases hP : patchPlatTruthy p.platformId with
        | none =>
          rw [updateMedia_true_nogroup hf hth hP] at h
          simp only [Except.ok.injEq, Prod.mk.injEq] at h
          obtain ⟨rfl, rfl⟩ := h
          exact ⟨rfl, rfl⟩
        | some P =>
          rw [updateMedia_clear_branch hf hth hP] at h
          simp only [Except.ok.injEq, Prod.mk.injEq] at h
          obtain ⟨rfl, rfl⟩ := h
          exact ⟨rfl, rfl⟩
  have hname : (applyPatchFields p f0).name = (match p.name with
      | some s => if s = "" then f0.name else s
      | none => f0.name) := by
    unfold applyPatchFields
    cases p.name with
    | none => cases p.platformId <;> simp
    | some n => by_cases hn : n = "" <;> cases p.platformId <;> simp [hn]
  have hplat : (applyPatchFields p f0).platformId = (match p.platformId with
      | some v => v
      | none => f0.platformId) := by
    unfold applyPatchFields
    cases p.name with
    | none => cases p.platformId <;> simp
    | some n => by_cases hn : n = "" <;> cases p.platformId <;> simp [hn]
  exact ⟨hret.1.trans hname, hret.2.trans hplat, updateMedia_find h⟩

def c7Rec : MediaRecord :=
  { id := "a", name := "old", type := "image/png", url := "/uploads/a.png",
    platformId := some "P", isThumbnail := false }

def c7Patch : Patch := { name := some "new", platformId := some none, isThumbnail := none }

def c7Ret : MediaRecord :=
  { id := "a", name := "new", type := "image/png", url := "/uploads/a.png",
    platformId := none, isThumbnail := false }

theorem updateMedia_name_platform_witness :
    [c7Rec].find? (fun f => f.id == "a") = some c7Rec ∧
    updateMedia [c7Rec] "a" c7Patch = Except.ok ([c7Ret], c7Ret) ∧
    ((c7Ret.name = match c7Patch.name with
      | some s => if s = "" then c7Rec.name else s
      | none => c7Rec.name) ∧
    (c7Ret.platformId = match c7Patch.platformId with
      | some v => v
      | none => c7Rec.platformId) ∧
    [c7Ret].find? (fun f => f.id == "a") = some c7Ret) :=
  ⟨rfl, rfl, updateMedia_name_platform [c7Rec] "a" c7Patch c7Rec [c7Ret] c7Ret rfl rfl⟩

/-! ### Claim C8 -/

/-- The patch `{isThumbnail: false}`. -/
def unsetThumb : Patch := { name := none, platformId := none, isThumbnail := some false }

/-- C8: `updateMedia(id, {isThumbnail: false})` is idempotent: a second
application returns exactly the same index state and the same record. -/
theorem updateMedia_unsetThumb_idem (files : List MediaRecord) (id : String)
    (files1 : List MediaRecord) (r1 : MediaRecord)
    (h : updateMedia files id unsetThumb = Except.ok (files1, r1)) :
    updateMedia files1 id unsetThumb = Except.ok (files1, r1) := by
  obtain ⟨f0, hf⟩ := updateMedia_ok_cases h
  have hfind := updateMedia_find h
  have hapf : applyPatchFields unsetThumb = fun f => f := rfl
  rw [updateMedia_false_thumb hf rfl] at h
  simp only [Except.ok.injEq, Prod.mk.injEq] at h
  obtain ⟨hfl, hr⟩ := h
  rw [hapf, updateFirst_id_fun] at hfl
  rw [updateMedia_false_thumb hfind rfl, hapf, updateFirst_id_fun, ← hfl,
    updateFirst_idem _ _ (fun f => { f with isThumbnail := false })
      (fun _ => rfl) (fun _ => rfl), hfl]
  subst hr
  rfl

def c8Rec : MediaRecord :=
  { id := "a", name := "A", type := "image/png", url := "/uploads/a.png",
    platformId := some "P", isThumbnail := true }

def c8RecOff : MediaRecord :=
  { id := "a", name := "A", type := "image/png", url := "/uploads/a.png",
    platformId := some "P", isThumbnail := false }

theorem updateMedia_unsetThumb_idem_witness :
    updateMedia [c8Rec] "a" unsetThumb = Except.ok ([c8RecOff], c8RecOff) ∧
    updateMedia [c8RecOff] "a" unsetThumb = Except.ok ([c8RecOff], c8RecOff) :=
  ⟨rfl, updateMedia_unsetThumb_idem [c8Rec] "a" [c8RecOff] c8RecOff rfl⟩

/-! ### Claim C6 -/

/-- C6: a successful PUT relates old and new index pointwise: every record
keeps its `id`, `type` (mimeType) and `url` (storageLocation), and every
record other than the target and the records of the cleared platform group
is entirely unchanged. -/
theorem updateMedia_frame (files : List MediaRecord) (id : String) (p : Patch)
    (files' : List MediaRecord) (ret : MediaRecord)
    (h : updateMedia files id p = Except.ok (files', ret)) :
    List.Forall₂ (fun f f' =>
      f'.id = f.id ∧ f'.type = f.type ∧ f'.url = f.url ∧
        (f.id ≠ id → (∀ P, clearGroup p = some P → f.platformId ≠ some P) → f' = f))
      files files' := by
  obtain ⟨f0, hf⟩ := updateMedia_ok_cases h
  have hapfF := applyPatchFields_frame p
  cases hth : p.isThumbnail with
  | none =>
    rw [updateMedia_none_thumb hf hth] at h
    simp only [Except.ok.injEq, Prod.mk.injEq] at h
    obtain ⟨rfl, rfl⟩ := h
    refine (forall2_updateFirst files id (applyPatchFields p)).imp ?_
    intro f f' hR
    rcases hR with ⟨hid, rfl⟩ | rfl
    · exact ⟨(hapfF f).1, (hapfF f).2.1, (hapfF f).2.2.1, fun hne _ => absurd hid hne⟩
    · exact ⟨rfl, rfl, rfl, fun _ _ => rfl⟩
  | some b =>
    have hsetF : ∀ y : MediaRecord,
        ({ y with isThumbnail := false } : MediaRecord).id = y.id ∧
        ({ y with isThumbnail := false } : MediaRecord).type = y.type ∧
        ({ y with isThumbnail := false } : MediaRecord).url = y.url :=
      fun y => ⟨rfl, rfl, rfl⟩
    have nogroup : ∀ files'',
        files'' = updateFirst (updateFirst files id (applyPatchFields p)) id
            (fun f => { f with isThumbnail := false }) →
        List.Forall₂ (fun f f' =>
          f'.id = f.id ∧ f'.type = f.type ∧ f'.url = f.url ∧
            (f.id ≠ id → (∀ P, clearGroup p = some P → f.platformId ≠ some P) → f' = f))
          files files'' := by
      rintro _ rfl
      have R1 := forall2_updateFirst files id (applyPatchFields p)
      have R3 := forall2_updateFirst (updateFirst files id (applyPatchFields p)) id
        (fun f => { f with isThumbnail := false })
      refine (forall2_comp R1 R3).imp ?_
      intro f f' hc
      obtain ⟨w, hR1, hR3⟩ := hc
      have hw : w.id = f.id ∧ w.type = f.type ∧ w.url = f.url := by
        rcases hR1 with ⟨_, rfl⟩ | rfl
        · exact ⟨(hapfF f).1, (hapfF f).2.1, (hapfF f).2.2.1⟩
        · exact ⟨rfl, rfl, rfl⟩
      have hfr : f'.id = w.id ∧ f'.type = w.type ∧ f'.url = w.url := by
        rcases hR3 with ⟨_, rfl⟩ | rfl
        · exact ⟨rfl, rfl, rfl⟩
        · exact ⟨rfl, rfl, rfl⟩
      refine ⟨hfr.1.trans hw.1, hfr.2.1.trans hw.2.1, hfr.2.2.trans hw.2.2, ?_⟩
      intro hne _
      have hwf : w = f := by
        rcases hR1 with ⟨hid, _⟩ | rfl
        · exact absurd hid hne
        · rfl
      subst hwf
      rcases hR3 with ⟨hid, _⟩ | rfl
      · exact absurd hid hne
      · rfl
    cases b with
    | false =>
      rw [updateMedia_false_thumb hf hth] at h
      simp only [Except.ok.injEq, Prod.mk.injEq] at h
      obtain ⟨rfl, rfl⟩ := h
      exact nogroup _ rfl
    | true =>
      cases hP : patchPlatTruthy p.platformId with
      | none =>
        rw [updateMedia_true_nogroup hf hth hP] at h
        simp only [Except.ok.injEq, Prod.mk.injEq] at h
        obtain ⟨rfl, rfl⟩ := h
        exact nogroup _ rfl
      | some P =>
        rw [updateMedia_clear_branch hf hth hP] at h
        simp only [Except.ok.injEq, Prod.mk.injEq] at h
        obtain ⟨rfl, rfl⟩ := h
        have hG : clearGroup p = some P := by
          unfold clearGroup
          rw [hth]
          exact hP
        have R1 := forall2_updateFirst files id (applyPatchFields p)
        have Rm : List.Forall₂ (fun f f' =>
            f' = if f.platformId = some P ∧ f.id ≠ id then { f with isThumbnail := false }
              else f)
            (updateFirst files id (applyPatchFields p))
            (clearSiblings (updateFirst files id (applyPatchFields p)) id P) := by
          simp only [clearSiblings]
          exact forall2_map _ _
        have R3 := forall2_updateFirst
          (clearSiblings (updateFirst files id (applyPatchFields p)) id P) id
          (fun f => { f with isThumbnail := true })
        refine (forall2_comp (forall2_comp R1 Rm) R3).imp ?_
        intro f f' hc
        obtain ⟨y, ⟨w, hR1, rfl⟩, hR3⟩ := hc
        have hw : w.id = f.id ∧ w.type = f.type ∧ w.url = f.url := by
          rcases hR1 with ⟨_, rfl⟩ | rfl
          · exact ⟨(hapfF f).1, (hapfF f).2.1, (hapfF f).2.2.1⟩
          · exact ⟨rfl, rfl, rfl⟩
        have hcw : (if w.platformId = some P ∧ w.id ≠ id then
              ({ w with isThumbnail := false } : MediaRecord) else w).id = w.id ∧
            (if w.platformId = some P ∧ w.id ≠ id then
              ({ w with isThumbnail := false } : MediaRecord) else w).type = w.type ∧
            (if w.platformId = some P ∧ w.id ≠ id then
              ({ w with isThumbnail := false } : MediaRecord) else w).url = w.url := by
          split <;> exact ⟨rfl, rfl, rfl⟩
        have hfr : f'.id = f.id ∧ f'.type = f.type ∧ f'.url = f.url := by
          rcases hR3 with ⟨_, rfl⟩ | rfl
          · exact ⟨hcw.1.trans hw.1, hcw.2.1.trans hw.2.1, hcw.2.2.trans hw.2.2⟩
          · exact ⟨hcw.1.trans hw.1, hcw.2.1.trans hw.2.1, hcw.2.2.trans hw.2.2⟩
        refine ⟨hfr.1, hfr.2.1, hfr.2.2, ?_⟩
        intro hne hgrp
        have hplat : f.platformId ≠ some P := hgrp P hG
        have hwf : w = f := by
          rcases hR1 with ⟨hid, _⟩ | rfl
          · exact absurd hid hne
          · rfl
        subst hwf
        have hy : (if w.platformId = some P ∧ w.id ≠ id then
            ({ w with isThumbnail := false } : MediaRecord) else w) = w := by
          rw [if_neg]
          rintro ⟨h1, -⟩
          exact hplat h1
        rw [hy] at hR3
        rcases hR3 with ⟨hid, _⟩ | rfl
        · exact absurd hid hne
        · rfl

def c6Files : List MediaRecord :=
  [{ id := "b", name := "B", type := "image/png", url := "/uploads/b.png",
     platformId := some "Q", isThumbnail := true },
   { id := "a", name := "A", type := "video/mp4", url := "/uploads/a.mp4",
     platformId := some "P", isThumbnail := false }]

def c6Patch : Patch := { name := some "A2", platformId := some (some "P"), isThumbnail := some true }

def c6Files' : List MediaRecord :=
  [{ id := "b", name := "B", type := "image/png", url := "/uploads/b.png",
     platformId := some "Q", isThumbnail := true },
   { id := "a", name := "A2", type := "video/mp4", url := "/uploads/a.mp4",
     platformId := some "P", isThumbnail := true }]

def c6Ret : MediaRecord :=
  { id := "a", name := "A2", type := "video/mp4", url := "/uploads/a.mp4",
    platformId := some "P", isThumbnail := true }

theorem updateMedia_frame_witness :
    updateMedia c6Files "a" c6Patch = Except.ok (c6Files', c6Ret) ∧
    List.Forall₂ (fun f f' =>
      f'.id = f.id ∧ f'.type = f.type ∧ f'.url = f.url ∧
        (f.id ≠ "a" → (∀ P, clearGroup c6Patch = some P → f.platformId ≠ some P) → f' = f))
      c6Files c6Files' :=
  ⟨rfl, updateMedia_frame c6Files "a" c6Patch c6Files' c6Ret rfl⟩

/-! ### Claim C2 -/

/-- C2 (amended): the exclusivity invariant does hold for group P right
after a PUT whose patch carries `isThumbnail: true` together with a truthy
`platformId` P (given unique record ids): at most one record of the
resulting index with `platformId = P` is flagged as thumbnail.  It is not
an invariant of all core operations: `createMedia` inserts records with the
requested flag without clearing siblings (see the counterexample). -/
theorem updateMedia_exclusive (files : List MediaRecord) (id : String) (p : Patch)
    (P : String) (files' : List MediaRecord) (ret : MediaRecord)
    (hnd : (files.map (fun f => f.id)).Nodup)
    (hth : p.isThumbnail = some true)
    (hP : patchPlatTruthy p.platformId = some P)
    (h : updateMedia files id p = Except.ok (files', ret)) :
    (files'.filter (fun f => f.platformId == some P && f.isThumbnail)).length ≤ 1 := by
  obtain ⟨f0, hf⟩ := updateMedia_ok_cases h
  rw [updateMedia_clear_branch hf hth hP] at h
  simp only [Except.ok.injEq, Prod.mk.injEq] at h
  obtain ⟨rfl, rfl⟩ := h
  have hidpres : ∀ f : MediaRecord,
      ((if f.id = id then applyPatchFields p f else f) : MediaRecord).id = f.id := by
    intro f
    split
    · exact (applyPatchFields_frame _ f).1
    · rfl
  have hids : ∀ (l : List MediaRecord) (g : MediaRecord → MediaRecord),
      (∀ f, (g f).id = f.id) →
      (l.map g).map (fun f => f.id) = l.map (fun f => f.id) := by
    intro l g hg
    rw [List.map_map]
    exact List.map_congr_left (fun a _ => hg a)
  rw [updateFirst_eq_map hnd]
  simp only [clearSiblings]
  rw [List.map_map]
  have hcfpres : ∀ f : MediaRecord,
      ((((fun f => if f.platformId = some P ∧ f.id ≠ id then
          ({ f with isThumbnail := false } : MediaRecord) else f) ∘
        (fun f => if f.id = id then applyPatchFields p f else f)) f) : MediaRecord).id
        = f.id := by
    intro f
    simp only [Function.comp]
    rw [show ∀ y : MediaRecord, ((if y.platformId = some P ∧ y.id ≠ id then
        ({ y with isThumbnail := false } : MediaRecord) else y) : MediaRecord).id = y.id
      from fun y => by split <;> rfl]
    exact hidpres f
  have hnd2 : ((files.map ((fun f => if f.platformId = some P ∧ f.id ≠ id then
      ({ f with isThumbnail := false } : MediaRecord) else f) ∘
        (fun f => if f.id = id then applyPatchFields p f else f))).map
        (fun f => f.id)).Nodup := by
    rw [hids _ _ hcfpres]
    exact hnd
  rw [updateFirst_eq_map hnd2, List.map_map]
  apply filter_map_length_le_one _ _ _ id hnd
  intro f hpf
  by_cases hid : f.id = id
  · exact hid
  · exfalso
    simp only [Function.comp] at hpf
    rw [if_neg hid] at hpf
    by_cases hc : f.platformId = some P ∧ f.id ≠ id
    · rw [if_pos hc] at hpf
      simp [hid] at hpf
    · rw [if_neg hc] at hpf
      simp [hid] at hpf
      exact hc ⟨hpf.1, hid⟩

def c2WFiles : List MediaRecord :=
  [{ id := "a", name := "A", type := "image/png", url := "/uploads/a.png",
     platformId := some "P1", isThumbnail := true },
   { id := "b", name := "B", type := "image/png", url := "/uploads/b.png",
     platformId := some "P1", isThumbnail := false }]

def c2WPatch : Patch := { name := none, platformId := some (some "P1"), isThumbnail := some true }

def c2WFiles' : List MediaRecord :=
  [{ id := "a", name := "A", type := "image/png", url := "/uploads/a.png",
     platformId := some "P1", isThumbnail := false },
   { id := "b", name := "B", type := "image/png", url := "/uploads/b.png",
     platformId := some "P1", isThumbnail := true }]

def c2WRet : MediaRecord :=
  { id := "b", name := "B", type := "image/png", url := "/uploads/b.png",
    platformId := some "P1", isThumbnail := true }

theorem updateMedia_exclusive_witness :
    ((c2WFiles.map (fun f => f.id)).Nodup ∧
      c2WPatch.isThumbnail = some true ∧
      patchPlatTruthy c2WPatch.platformId = some "P1" ∧
      updateMedia c2WFiles "b" c2WPatch = Except.ok (c2WFiles', c2WRet)) ∧
    (c2WFiles'.filter (fun f => f.platformId == some "P1" && f.isThumbnail)).length ≤ 1 :=
  ⟨⟨by decide, rfl, rfl, rfl⟩,
    updateMedia_exclusive c2WFiles "b" c2WPatch "P1" c2WFiles' c2WRet (by decide) rfl rfl rfl⟩

def c2Rq1 : UploadRequest :=
  { mimetype := "image/png", size := 10, originalname := "x.png", filename := "f1.png",
    name := none, platformId := some "P1", isThumbnail := some "true" }

def c2Rq2 : UploadRequest :=
  { mimetype := "image/png", size := 10, originalname := "y.png", filename := "f2.png",
    name := none, platformId := some "P1", isThumbnail := some "true" }

/-- C2 counterexample: two successful uploads, both for platform "P1" and
both with `isThumbnail=true` in the form body, leave TWO records of group
"P1" flagged as thumbnail — the POST handler never clears siblings, so
exclusivity is not an invariant of `createMedia`. -/
theorem createMedia_exclusivity_cex :
    ((createMedia { store := [], mediaFiles := [] } c2Rq1 "id1").outcome.isOk = true) ∧
    ((createMedia (createMedia { store := [], mediaFiles := [] } c2Rq1 "id1").state
        c2Rq2 "id2").outcome.isOk = true) ∧
    (((createMedia (createMedia { store := [], mediaFiles := [] } c2Rq1 "id1").state
        c2Rq2 "id2").state.mediaFiles.filter
      (fun f => f.platformId == some "P1" && f.isThumbnail)).length = 2) :=
  ⟨rfl, rfl, rfl⟩

/-! ### Claim C3 -/

/-- C3 (amended): multer enforces a 100 MiB per-file limit before anything
else — an upload over it is aborted with LIMIT_FILE_SIZE (never
CapacityExceeded, state untouched).  Within that limit, in the local
variant multer persists the buffered file *before* the handler's quota
check and `getDirSize` counts it, so with U the usage before the upload
the handler rejects iff `U + 2·S > 500 MiB` (not `U + S`); on rejection
the file is unlinked again, leaving the store and the index exactly as
before.  The cloud-functions variant at the end of `server.js` performs no
capacity check at all. -/
theorem createMedia_capacity (st : ServerState) (rq : UploadRequest) (fid : String)
    (hm : rq.mimetype ∈ allowedTypes)
    (hfresh : ∀ o ∈ st.store, o.name ≠ rq.filename) :
    (rq.size ≤ FILE_SIZE_LIMIT →
      (((createMedia st rq fid).outcome = Except.error CreateError.capacityExceeded ↔
        getDirSize st.store + 2 * rq.size > MAX_TOTAL_SIZE) ∧
      ((createMedia st rq fid).outcome = Except.error CreateError.capacityExceeded →
        (createMedia st rq fid).state = st))) ∧
    (rq.size > FILE_SIZE_LIMIT →
      createMedia st rq fid =
        { state := st, events := [],
          outcome := Except.error CreateError.limitFileSize }) ∧
    (∀ (mf : List MediaRecord) (saveOk : Bool),
      (createMediaFn mf saveOk rq fid).2 ≠ Except.error CreateError.capacityExceeded) := by
  have hfn : ∀ (mf : List MediaRecord) (saveOk : Bool),
      (createMediaFn mf saveOk rq fid).2 ≠ Except.error CreateError.capacityExceeded := by
    intro mf saveOk
    unfold createMediaFn
    rw [if_pos hm]
    by_cases hL : rq.size > FILE_SIZE_LIMIT
    · rw [if_pos hL]
      simp
    · rw [if_neg hL]
      cases saveOk <;> simp
  have hsum : getDirSize (st.store ++ [⟨rq.filename, rq.size⟩]) =
      getDirSize st.store + rq.size := by
    simp [getDirSize]
  have hstore : (st.store ++ [⟨rq.filename, rq.size⟩] : List StoredObject).filter
      (fun o => o.name != rq.filename) = st.store := by
    rw [List.filter_append]
    have h1 : st.store.filter (fun o => o.name != rq.filename) = st.store :=
      List.filter_eq_self.mpr (fun o ho => bne_iff_ne.mpr (hfresh o ho))
    have h2 : ([⟨rq.filename, rq.size⟩] : List StoredObject).filter
        (fun o => o.name != rq.filename) = [] := by simp
    rw [h1, h2, List.append_nil]
  refine ⟨?_, ?_, hfn⟩
  · intro hsz
    have hL : ¬ (rq.size > FILE_SIZE_LIMIT) := by omega
    simp only [createMedia, if_pos hm, if_neg hL, hsum]
    by_cases hcap : getDirSize st.store + rq.size + rq.size > MAX_TOTAL_SIZE
    · rw [if_pos hcap]
      refine ⟨⟨fun _ => by omega, fun _ => rfl⟩, fun _ => ?_⟩
      simp only [hstore]
    · rw [if_neg hcap]
      exact ⟨⟨fun hcontra => by simp at hcontra, fun hgt => absurd (by omega) hcap⟩,
        fun hcontra => by simp at hcontra⟩
  · intro hL
    simp only [createMedia, if_pos hm, if_pos hL]

def c3St : ServerState :=
  { store := [{ name := "old.mp4", size := 350 * 1024 * 1024 }], mediaFiles := [] }

def c3Rq : UploadRequest :=
  { mimetype := "image/png", size := 100 * 1024 * 1024, originalname := "big.png",
    filename := "big-f.png", name := none, platformId := none, isThumbnail := none }

/-- C3 counterexample: 350 MiB already stored and a 100 MB upload — within
multer's per-file limit, so the request reaches the handler.  The claim's
`U + S = 450 MiB ≤ 500 MiB` predicts admission, but the file is already on
disk when `getDirSize` runs, so the handler sees `450 + 100 > 500` MiB and
rejects with CapacityExceeded. -/
theorem createMedia_capacity_claim_cex :
    c3Rq.size ≤ FILE_SIZE_LIMIT ∧
    getDirSize c3St.store + c3Rq.size ≤ MAX_TOTAL_SIZE ∧
    (createMedia c3St c3Rq "id1").outcome =
      Except.error CreateError.capacityExceeded :=
  ⟨by decide, by decide, rfl⟩

def c3WSt : ServerState :=
  { store := [{ name := "old.mp4", size := 500 * 1024 * 1024 }], mediaFiles := [] }

def c3WRq : UploadRequest :=
  { mimetype := "image/png", size := 1, originalname := "t.png", filename := "t-f.png",
    name := none, platformId := none, isThumbnail := none }

theorem createMedia_capacity_witness :
    (c3WRq.mimetype ∈ allowedTypes ∧ (∀ o ∈ c3WSt.store, o.name ≠ c3WRq.filename)) ∧
    ((c3WRq.size ≤ FILE_SIZE_LIMIT →
      (((createMedia c3WSt c3WRq "id9").outcome = Except.error CreateError.capacityExceeded ↔
        getDirSize c3WSt.store + 2 * c3WRq.size > MAX_TOTAL_SIZE) ∧
      ((createMedia c3WSt c3WRq "id9").outcome = Except.error CreateError.capacityExceeded →
        (createMedia c3WSt c3WRq "id9").state = c3WSt))) ∧
    (c3WRq.size > FILE_SIZE_LIMIT →
      createMedia c3WSt c3WRq "id9" =
        { state := c3WSt, events := [],
          outcome := Except.error CreateError.limitFileSize }) ∧
    (∀ (mf : List MediaRecord) (saveOk : Bool),
      (createMediaFn mf saveOk c3WRq "id9").2 ≠ Except.error CreateError.capacityExceeded)) :=
  ⟨⟨by decide, by decide⟩, createMedia_capacity c3WSt c3WRq "id9" (by decide) (by decide)⟩

/-! ### Claim C4 -/

/-- C4 (amended): a failure of the bucket listing while computing aggregate
usage is caught and logged inside `getTotalSize`, which returns the partial
total accumulated so far (`0` when `getFiles` itself fails); the handler
then proceeds past admission against that total — it does not return
CapacityExceeded and no StoreUnavailable reaches the caller.  What the
caller gets instead is the try block's generic 500 `uploadFailed`
(`src/unnamed/part_000` never requires `path`, so `path.extname` on line 93
throws on every admitted upload), with the index unchanged. -/
theorem getTotalSize_swallow (mf : List MediaRecord) (rq : UploadRequest)
    (hm : rq.mimetype ∈ allowedTypes) (hsz : rq.size ≤ FILE_SIZE_LIMIT)
    (hs : rq.size ≤ MAX_TOTAL_SIZE) :
    getTotalSize BucketListing.unavailable = 0 ∧
    createMediaCloud mf BucketListing.unavailable rq =
      (mf, Except.error CreateError.uploadFailed) ∧
    (createMediaCloud mf BucketListing.unavailable rq).2 ≠
      Except.error CreateError.capacityExceeded := by
  have hL : ¬ (rq.size > FILE_SIZE_LIMIT) := by omega
  have hng : ¬ (getTotalSize BucketListing.unavailable + rq.size > MAX_TOTAL_SIZE) := by
    simp only [getTotalSize]
    omega
  have hout : createMediaCloud mf BucketListing.unavailable rq =
      (mf, Except.error CreateError.uploadFailed) := by
    unfold createMediaCloud
    rw [if_pos hm, if_neg hL, if_neg hng]
  refine ⟨rfl, hout, ?_⟩
  rw [hout]
  simp

def c4Rq : UploadRequest :=
  { mimetype := "image/png", size := 1, originalname := "a.png", filename := "fa.png",
    name := none, platformId := none, isThumbnail := none }

/-- C4 counterexample: with the bucket unreachable (`getFiles` throws), the
claim predicts that the StoreUnavailable failure reaches the caller before
admission; the code instead swallows it inside `getTotalSize` (returning
0), passes the quota gate with that zero total (no CapacityExceeded), and
answers the unrelated post-admission 500 `uploadFailed` from the save
step's try/catch. -/
theorem createMediaCloud_swallow_cex :
    getTotalSize BucketListing.unavailable = 0 ∧
    createMediaCloud [] BucketListing.unavailable c4Rq =
      ([], Except.error CreateError.uploadFailed) ∧
    (createMediaCloud [] BucketListing.unavailable c4Rq).2 ≠
      Except.error CreateError.capacityExceeded :=
  ⟨rfl, rfl, by decide⟩

def c4Mf : List MediaRecord :=
  [{ id := "z", name := "Z", type := "image/png", url := "/uploads/z.png",
     platformId := none, isThumbnail := false }]

theorem getTotalSize_swallow_witness :
    (c4Rq.mimetype ∈ allowedTypes ∧ c4Rq.size ≤ FILE_SIZE_LIMIT ∧
      c4Rq.size ≤ MAX_TOTAL_SIZE) ∧
    (getTotalSize BucketListing.unavailable = 0 ∧
      createMediaCloud c4Mf BucketListing.unavailable c4Rq =
        (c4Mf, Except.error CreateError.uploadFailed) ∧
      (createMediaCloud c4Mf BucketListing.unavailable c4Rq).2 ≠
        Except.error CreateError.capacityExceeded) :=
  ⟨⟨by decide, by decide, by decide⟩,
    getTotalSize_swallow c4Mf c4Rq (by decide) (by decide) (by decide)⟩

/-! ### Claim C5 -/

/-- C5: an upload whose MIME type is outside the allow-list is rejected by
the multer `fileFilter` before anything is persisted: no store event occurs,
the state is unchanged and the outcome is UnsupportedMediaType — in the
local variant and in the cloud variant alike. -/
theorem createMedia_mime_reject (st : ServerState) (rq : UploadRequest) (fid : String)
    (hm : rq.mimetype ∉ allowedTypes) :
    createMedia st rq fid =
      { state := st, events := [], outcome := Except.error CreateError.unsupportedMediaType } ∧
    (∀ (mf : List MediaRecord) (listing : BucketListing),
      createMediaCloud mf listing rq =
        (mf, Except.error CreateError.unsupportedMediaType)) := by
  constructor
  · unfold createMedia
    rw [if_neg hm]
  · intro mf listing
    unfold createMediaCloud
    rw [if_neg hm]

def c5Rq : UploadRequest :=
  { mimetype := "text/plain", size := 4, originalname := "notes.txt", filename := "fz.txt",
    name := none, platformId := none, isThumbnail := none }

def c5St : ServerState :=
  { store := [{ name := "keep.png", size := 7 }], mediaFiles := [] }

theorem createMedia_mime_reject_witness :
    c5Rq.mimetype ∉ allowedTypes ∧
    (createMedia c5St c5Rq "id1" =
      { state := c5St, events := [],
        outcome := Except.error CreateError.unsupportedMediaType } ∧
    (∀ (mf : List MediaRecord) (listing : BucketListing),
      createMediaCloud mf listing c5Rq =
        (mf, Except.error CreateError.unsupportedMediaType))) :=
  ⟨by decide, createMedia_mime_reject c5St c5Rq "id1" (by decide)⟩

/-! ### Claim C9 -/

/-- C9: a record created by a successful POST has `isThumbnail = true`
exactly when the form field `isThumbnail` is the literal string "true"
(`req.body.isThumbnail === 'true'`); any other value yields `false`. -/
theorem createMedia_thumb_string (st : ServerState) (rq : UploadRequest) (fid : String)
    (rec : MediaRecord) (h : (createMedia st rq fid).outcome = Except.ok rec) :
    rec.isThumbnail = true ↔ rq.isThumbnail = some "true" := by
  simp only [createMedia] at h
  by_cases hm : rq.mimetype ∈ allowedTypes
  · rw [if_pos hm] at h
    by_cases hL : rq.size > FILE_SIZE_LIMIT
    · rw [if_pos hL] at h
      simp at h
    · rw [if_neg hL] at h
      by_cases hcap : getDirSize (st.store ++ [⟨rq.filename, rq.size⟩]) + rq.size >
          MAX_TOTAL_SIZE
      · rw [if_pos hcap] at h
        simp at h
      · rw [if_neg hcap] at h
        simp only [Except.ok.injEq] at h
        subst h
        simp
  · rw [if_neg hm] at h
    simp at h

def c9Rq : UploadRequest :=
  { mimetype := "image/png", size := 10, originalname := "x.png", filename := "f1.png",
    name := none, platformId := none, isThumbnail := some "true" }

def c9Rec : MediaRecord :=
  { id := "id1", name := "x.png", type := "image/png", url := "/uploads/f1.png",
    platformId := none, isThumbnail := true }

theorem createMedia_thumb_string_witness :
    (createMedia { store := [], mediaFiles := [] } c9Rq "id1").outcome = Except.ok c9Rec ∧
    (c9Rec.isThumbnail = true ↔ c9Rq.isThumbnail = some "true") :=
  ⟨rfl, createMedia_thumb_string { store := [], mediaFiles := [] } c9Rq "id1" c9Rec rfl⟩

/-! ### Claim C10 -/

/-- C10: DELETE removes the record from the index only after the stored
object was successfully removed: on any error the whole state (store and
index) is untouched, and on success the object is gone from the store and
exactly the records with that id are gone from the index. -/
theorem deleteMedia_atomic (st : ServerState) (id : String) (ioFail : Bool) :
    (∀ e, (deleteMedia st id ioFail).2 = Except.error e →
      (deleteMedia st id ioFail).1 = st) ∧
    ((deleteMedia st id ioFail).2 = Except.ok () →
      ∀ f0, st.mediaFiles.find? (fun f => f.id == id) = some f0 →
        (deleteMedia st id ioFail).1.store =
            st.store.filter (fun o => o.name != basename f0.url) ∧
          (∀ o ∈ (deleteMedia st id ioFail).1.store, o.name ≠ basename f0.url) ∧
          (deleteMedia st id ioFail).1.mediaFiles =
            st.mediaFiles.filter (fun f => f.id != id)) := by
  cases hf : st.mediaFiles.find? (fun f => f.id == id) with
  | none =>
    constructor
    · intro e _
      simp [deleteMedia, hf]
    · intro hok
      simp [deleteMedia, hf] at hok
  | some file =>
    constructor
    · intro e he
      simp only [deleteMedia, hf] at he ⊢
      by_cases hio : (ioFail || !(st.store.any (fun o => o.name == basename file.url))) = true
      · rw [if_pos hio]
      · rw [if_neg hio] at he
        exact absurd he (by simp)
    · intro hok f0 hf0
      have h0 : file = f0 := Option.some.inj hf0
      subst h0
      simp only [deleteMedia, hf] at hok ⊢
      by_cases hio : (ioFail || !(st.store.any (fun o => o.name == basename file.url))) = true
      · rw [if_pos hio] at hok
        exact absurd hok (by simp)
      · rw [if_neg hio] at hok ⊢
        refine ⟨rfl, ?_, rfl⟩
        intro o ho
        exact bne_iff_ne.mp (List.mem_filter.mp ho).2

def c10Rec : MediaRecord :=
  { id := "a", name := "A", type := "image/png", url := "/uploads/a.png",
    platformId := none, isThumbnail := false }

def c10St : ServerState := { store := [{ name := "a.png", size := 5 }], mediaFiles := [c10Rec] }

theorem deleteMedia_atomic_witness :
    (deleteMedia c10St "a" true).2 = Except.error DeleteError.unlinkFailed ∧
    ((∀ e, (deleteMedia c10St "a" true).2 = Except.error e →
      (deleteMedia c10St "a" true).1 = c10St) ∧
    ((deleteMedia c10St "a" true).2 = Except.ok () →
      ∀ f0, c10St.mediaFiles.find? (fun f => f.id == "a") = some f0 →
        (deleteMedia c10St "a" true).1.store =
            c10St.store.filter (fun o => o.name != basename f0.url) ∧
          (∀ o ∈ (deleteMedia c10St "a" true).1.store, o.name ≠ basename f0.url) ∧
          (deleteMedia c10St "a" true).1.mediaFiles =
            c10St.mediaFiles.filter (fun f => f.id != "a"))) :=
  ⟨rfl, deleteMedia_atomic c10St "a" true⟩

end DroneCatalog
